import Mathlib

/-!
Shallow embedding of the citation-graph core of the `mcp-deepresearch`
repository (Python), together with proofs about it.

Embedded source:
* `src/deepresearch/connectors/{arxiv,pubmed,semantic_scholar,google_scholar}.py`
  (the static `parse_paper_id` methods);
* `src/deepresearch/pipelines/citation_graph_builder.py`
  (`build_citation_graph`, `_get_paper_metadata`, `_crossref_to_paper`);
* `src/deepresearch/models.py` (the pydantic data model).

Modelling conventions: Python strings are `String`; the Python dict
`papers_dict` is an insertion-ordered association list; Python sets of id
strings are duplicate-free lists in insertion order (CPython set iteration
order is unspecified, but the theorems below never depend on an iteration
order, only on the contents of the traversal state); a raised exception is
`Except.error ()`; a fallible call returning `None` is `Option`.  The
builder's network collaborators (`connector.get_paper_metadata`,
`Works.doi`, `_get_citing_papers`, `_get_cited_papers`) are parameters of
the embedding, matching how the claims quantify over fixed deterministic
data sources.  JSON-shaped Crossref payloads are the inductive `JVal`;
dynamic Python type errors (indexing an empty list, attribute access on a
non-dict, a pydantic validation failure) are modelled as raised exceptions.
-/

/-! ## Python string operations -/

/-- `listsEqFrom p s`: `p` is a leading segment of `s` (character lists). -/
def strPre : List Char → List Char → Bool
  | [], _ => true
  | _ :: _, [] => false
  | a :: as, b :: bs => a == b && strPre as bs

/-- Python `s.startswith(p)`. -/
def pyStartsWith (s p : String) : Bool :=
  strPre p.toList s.toList

/-- Helper for Python substring membership, on character lists. -/
def strHasSub (sub : List Char) : List Char → Bool
  | [] => sub.isEmpty
  | c :: rest => strPre sub (c :: rest) || strHasSub sub rest

/-- Python `sub in s` (substring containment). -/
def pyIn (sub s : String) : Bool :=
  strHasSub sub.toList s.toList

/-- Python `s.split(sep)` for a nonempty separator, on character lists:
a new field starts after each separator occurrence.  The `fuel` argument
makes the recursion structural; called with `fuel = s.length` the `0`
fallback is unreachable, as is the `[]` fallback of the inner match (the
function never returns `[]`). -/
def strSplitAux (sep : List Char) : Nat → List Char → List (List Char)
  | _, [] => [[]]
  | 0, s => [s]
  | fuel + 1, c :: rest =>
    if sep ≠ [] ∧ strPre sep (c :: rest) = true then
      [] :: strSplitAux sep fuel ((c :: rest).drop sep.length)
    else
      match strSplitAux sep fuel rest with
      | [] => [[c]]
      | f :: fs => (c :: f) :: fs

/-- Python `s.split(sep)` for a nonempty separator. -/
def pySplit (s sep : String) : List String :=
  (strSplitAux sep.toList s.toList.length s.toList).map String.mk

/-- Python `s.isdigit()` restricted to ASCII digits (the only inputs the
repository feeds it). -/
def pyIsDigit (s : String) : Bool :=
  !s.toList.isEmpty && s.toList.all fun c => '0' ≤ c && c ≤ '9'

/-- Python `s.replace(old, new)` for a nonempty `old` (the source only
ever replaces the tag `"doi:"`): every non-overlapping occurrence,
scanned left to right.  The `fuel` argument makes the recursion
structural; it is called with `fuel = s.length`, which always suffices
(each step consumes at least one character), so the `0` fallback is
unreachable. -/
def strReplaceAux (old new : List Char) : Nat → List Char → List Char
  | _, [] => []
  | 0, s => s
  | fuel + 1, c :: rest =>
    if old ≠ [] ∧ strPre old (c :: rest) = true then
      new ++ strReplaceAux old new fuel ((c :: rest).drop old.length)
    else c :: strReplaceAux old new fuel rest

/-- Python `s.replace(old, new)` lifted to `String`. -/
def pyReplace (s old new : String) : String :=
  String.mk (strReplaceAux old.toList new.toList s.toList.length s.toList)

/-! ## Connector id normalization

Each connector's static `parse_paper_id`, transcribed branch by branch. -/

namespace ArxivConnector

/-- `ArxivConnector.parse_paper_id`, `connectors/arxiv.py` lines 123-138.
The URL branch scans `external_id.split("/")` for a `"abs"` component that
has a successor, exactly like the Python `for i, part in enumerate` loop. -/
def parse_paper_id (external_id : String) : String :=
  if pyStartsWith external_id "arxiv:" then external_id
  else
    match (if pyIn "arxiv.org" external_id then
             findPartAfter "abs" (pySplit external_id "/")
           else none) with
    | some found => "arxiv:" ++ found
    | none => "arxiv:" ++ external_id
where
  /-- The first list element equal to `tag` that has a successor yields
  that successor (the Python loop `if part == tag and i < len(parts)-1`). -/
  findPartAfter (tag : String) : List String → Option String
    | [] => none
    | a :: rest =>
      match rest with
      | [] => none
      | b :: _ => if a = tag then some b else findPartAfter tag rest

end ArxivConnector

namespace SemanticScholarConnector

/-- `SemanticScholarConnector.parse_paper_id`,
`connectors/semantic_scholar.py` lines 189-208.  Note the bare-DOI branch:
an input starting with `"10."` is rewritten to `"doi:" ++ input`. -/
def parse_paper_id (external_id : String) : String :=
  if pyStartsWith external_id "semanticscholar:" then external_id
  else
    match (if pyIn "semanticscholar.org/paper" external_id then
             ArxivConnector.parse_paper_id.findPartAfter "paper" (pySplit external_id "/")
           else none) with
    | some found => "semanticscholar:" ++ found
    | none =>
      if pyStartsWith external_id "10." then "doi:" ++ external_id
      else "semanticscholar:" ++ external_id

end SemanticScholarConnector

namespace PubMedConnector

/-- `PubMedConnector.parse_paper_id`, `connectors/pubmed.py` lines 252-273.
The URL branch returns the first all-digit path component. -/
def parse_paper_id (external_id : String) : String :=
  if pyStartsWith external_id "pubmed:" then external_id
  else
    match (if pyIn "pubmed.ncbi.nlm.nih.gov" external_id then
             (pySplit external_id "/").find? fun part => pyIsDigit part
           else none) with
    | some part => "pubmed:" ++ part
    | none =>
      if pyIsDigit external_id then "pubmed:" ++ external_id
      else external_id

end PubMedConnector

namespace GoogleScholarConnector

/-- The regex search `re.search(r"cluster=([^&]+)", s)`: at each position,
try to match the literal `cluster=` followed by at least one non-`&`
character; the capture group takes the maximal run of non-`&` characters.
Failure at one position moves the scan one character to the right. -/
def findCluster : List Char → Option (List Char)
  | [] => none
  | c :: rest =>
    if strPre "cluster=".toList (c :: rest) then
      let grp := ((c :: rest).drop 8).takeWhile fun ch => ch ≠ '&'
      if grp.isEmpty then findCluster rest else some grp
    else findCluster rest

/-- `GoogleScholarConnector.parse_paper_id`,
`connectors/google_scholar.py` lines 232-246. -/
def parse_paper_id (external_id : String) : String :=
  if pyStartsWith external_id "googlescholar:" then external_id
  else
    match (if pyIn "scholar.google.com" external_id then
             findCluster external_id.toList
           else none) with
    | some cluster => "googlescholar:" ++ String.mk cluster
    | none => "googlescholar:" ++ external_id

end GoogleScholarConnector

/-! ## JSON-shaped payloads (Crossref responses, `raw_metadata`) -/

/-- A Python/JSON value as delivered by the Crossref client. -/
inductive JVal where
  | s : String → JVal
  | i : Int → JVal
  | arr : List JVal → JVal
  | obj : List (String × JVal) → JVal
  | null : JVal

/-- Python truthiness of a `JVal`. -/
def jTruthy : JVal → Bool
  | .s t => t != ""
  | .i n => n != 0
  | .arr l => !l.isEmpty
  | .obj l => !l.isEmpty
  | .null => false

/-! ## The data model (`models.py`) -/

/-- A `datetime` date; `datetime(year, month, day)` validates its range. -/
structure PDate where
  year : Int
  month : Int
  day : Int
deriving DecidableEq, Repr

def PDate.isLeap (y : Int) : Bool :=
  (y % 4 == 0 && y % 100 != 0) || y % 400 == 0

def PDate.daysInMonth (y m : Int) : Int :=
  if m == 1 || m == 3 || m == 5 || m == 7 || m == 8 || m == 10 || m == 12 then 31
  else if m == 4 || m == 6 || m == 9 || m == 11 then 30
  else if PDate.isLeap y then 29 else 28

/-- The range check performed by `datetime.datetime(year, month, day)`. -/
def PDate.valid (y m d : Int) : Bool :=
  1 ≤ y && y ≤ 9999 && 1 ≤ m && m ≤ 12 && 1 ≤ d && d ≤ PDate.daysInMonth y m

/-- `models.Author`. -/
structure Author where
  name : String
  affiliation : Option String := none
  email : Option String := none

/-- `models.Paper`, fields in source order. -/
structure Paper where
  paper_id : String
  title : String
  authors : List Author
  abstract : Option String := none
  url : Option String := none
  pdf_url : Option String := none
  publication_date : Option PDate := none
  journal : Option String := none
  doi : Option String := none
  source : String
  citations_count : Option Int := none
  raw_metadata : Option JVal := none

/-- `models.CitationLink`: directed edge, source cites target. -/
structure CitationLink where
  source_id : String
  target_id : String
deriving DecidableEq, Repr

/-- `models.CitationGraph`. -/
structure CitationGraph where
  nodes : List Paper
  links : List CitationLink

/-! ## `CitationGraphBuilder._crossref_to_paper`

`citation_graph_builder.py` lines 294-356.  The body is wrapped in
`try/except Exception: return None`; `crossrefToPaperE` is the body with
exceptions explicit, `_crossref_to_paper` collapses them to `none`.
Python dynamic type errors and pydantic validation errors are `.error ()`:
indexing `[0]` of an empty or non-list value, `.get` on a non-dict,
iterating a non-list, `" ".join` over a non-string, an out-of-range
`datetime`, and a non-string value for a `str`-typed pydantic field. -/

/-- A pydantic `str` field: accepts exactly a string. -/
def JVal.asStr : JVal → Except Unit String
  | .s t => .ok t
  | _ => .error ()

/-- A pydantic `Optional[str]` field: accepts a string or `None`. -/
def JVal.asStrOpt : JVal → Except Unit (Option String)
  | .s t => .ok (some t)
  | .null => .ok none
  | _ => .error ()

/-- An `int` position (`datetime` arguments). -/
def JVal.asInt : JVal → Except Unit Int
  | .i n => .ok n
  | _ => .error ()

/-- Dict lookup `d.get(k)` with `None` default, on an `obj` field list. -/
def jGet (fields : List (String × JVal)) (k : String) : JVal :=
  (List.lookup k fields).getD .null

/-- One element of the `crossref_data["author"]` loop: returns `none` when
`name_parts` stays empty (the author is skipped), `some` otherwise. -/
def authorFrom (item : JVal) : Except Unit (Option Author) := do
  let d ← match item with
    | .obj d => pure d
    | _ => .error ()
  let nameParts : List JVal :=
    (match List.lookup "given" d with | some g => [g] | none => []) ++
    (match List.lookup "family" d with | some f => [f] | none => [])
  if nameParts.isEmpty then
    return none
  else
    let strs ← nameParts.mapM JVal.asStr
    let affV := jGet d "affiliation"
    let aff ←
      if jTruthy affV then
        match affV with
        | .arr (a :: _) =>
          match a with
          | .obj ad => (jGet ad "name").asStrOpt
          | _ => .error ()
        | _ => .error ()
      else pure none
    return some { name := String.intercalate " " strs, affiliation := aff, email := none }

/-- The `published-print` branch: `.get("date-parts", [[]])[0]`, then
`datetime(year, month or 1, day or 1)`. -/
def extractDate (ppV : JVal) : Except Unit (Option PDate) := do
  let pp ← match ppV with
    | .obj d => pure d
    | _ => .error ()
  let dp0 ← match (List.lookup "date-parts" pp).getD (.arr [.arr []]) with
    | .arr [] => .error ()
    | .arr (x :: _) => pure x
    | _ => .error ()
  let l ← match dp0 with
    | .arr l => pure l
    | _ => .error ()
  match l with
  | [] => return none
  | y :: restL => do
    let yi ← y.asInt
    let mi ← match restL with | [] => pure (1 : Int) | m :: _ => m.asInt
    let di ← match restL with
      | [] => pure (1 : Int)
      | [_] => pure (1 : Int)
      | _ :: d :: _ => d.asInt
    if PDate.valid yi mi di then return some ⟨yi, mi, di⟩ else .error ()

/-- The `title` / `container-title` expression:
`data.get(k, [""])[0] if isinstance(data.get(k, []), list) else data.get(k, "")`. -/
def titleLike (v : Option JVal) : Except Unit String :=
  match v with
  | none => .ok ""
  | some (.arr []) => .error ()
  | some (.arr (x :: _)) => x.asStr
  | some (.s t) => .ok t
  | some _ => .error ()

def crossrefToPaperE (crossref_data : JVal) : Except Unit (Option Paper) := do
  let fields ← match crossref_data with
    | .obj fs => pure fs
    | _ => .error ()
  let doiV := jGet fields "DOI"
  if jTruthy doiV then
    let authors ← match List.lookup "author" fields with
      | none => pure ([] : List Author)
      | some (.arr items) => do
          let opts ← items.mapM authorFrom
          pure (opts.filterMap id)
      | some _ => .error ()
    let pub_date ← match List.lookup "published-print" fields with
      | none => pure (none : Option PDate)
      | some ppV => extractDate ppV
    let doi ← doiV.asStr
    let title ← titleLike (List.lookup "title" fields)
    let abstract ← ((List.lookup "abstract" fields).getD (.s "")).asStr
    let url ← ((List.lookup "URL" fields).getD (.s "")).asStr
    let journal ← titleLike (List.lookup "container-title" fields)
    let citations ← match jGet fields "is-referenced-by-count" with
      | .null => pure (none : Option Int)
      | .i n => pure (some n)
      | _ => .error ()
    return some {
      paper_id := "doi:" ++ doi
      title := title
      authors := authors
      abstract := some abstract
      url := some url
      pdf_url := none
      publication_date := pub_date
      journal := some journal
      doi := some doi
      source := "crossref"
      citations_count := citations
      raw_metadata := some crossref_data }
  else
    return none

/-- `_crossref_to_paper`: the `try/except` collapses any exception to `None`. -/
def crossref_to_paper (crossref_data : JVal) : Option Paper :=
  match crossrefToPaperE crossref_data with
  | .error _ => none
  | .ok r => r

/-! ## `CitationGraphBuilder._get_paper_metadata`

`citation_graph_builder.py` lines 111-164.  A registered connector is a
pair of its `parse_paper_id` (whose raised exceptions the probe loop
distinguishes: `NotImplementedError`/`ValueError` are caught and the probe
continues, anything else propagates) and its async `get_paper_metadata`
(any exception it raises is caught here and converted to `None`).  The
Crossref client `Works.doi` is the `works_doi` parameter. -/

/-- Outcome of a connector's `parse_paper_id` call inside the probe loop. -/
inductive ParseOutcome where
  | ok : String → ParseOutcome
  | caught : ParseOutcome
  | raised : ParseOutcome
deriving DecidableEq

/-- A connector as the resolver sees it. -/
structure ResolverConnector where
  parse_paper_id : String → ParseOutcome
  get_paper_metadata : String → Except Unit (Option Paper)

/-- The `for conn_source, conn in self.connectors.items()` probe loop:
the first connector whose `parse_paper_id` output differs from the input
is selected together with the normalized id. -/
def probeConnectors (paper_id : String) :
    List (String × ResolverConnector) → Except Unit (Option (ResolverConnector × String))
  | [] => .ok none
  | (_, conn) :: rest =>
    match conn.parse_paper_id paper_id with
    | .raised => .error ()
    | .caught => probeConnectors paper_id rest
    | .ok normalized_id =>
      if normalized_id ≠ paper_id then .ok (some (conn, normalized_id))
      else probeConnectors paper_id rest

/-- `source, _ = paper_id.split(":", 1)` guarded by `":" in paper_id`. -/
def sourceOf (paper_id : String) : Option String :=
  if pyIn ":" paper_id then some ((pySplit paper_id ":").headD "") else none

/-- `if source and source in self.connectors: connector = self.connectors[source]`. -/
def directConnector (connectors : List (String × ResolverConnector))
    (paper_id : String) : Option ResolverConnector :=
  match sourceOf paper_id with
  | some s => if s ≠ "" then List.lookup s connectors else none
  | none => none

/-- `return await connector.get_paper_metadata(paper_id)` inside
`try/except: return None`. -/
def fetchWith (conn : ResolverConnector) (paper_id : String) :
    Except Unit (Option Paper) :=
  match conn.get_paper_metadata paper_id with
  | .error _ => .ok none
  | .ok r => .ok r

def get_paper_metadata (connectors : List (String × ResolverConnector))
    (works_doi : String → Except Unit (Option JVal)) (paper_id : String) :
    Except Unit (Option Paper) :=
  match directConnector connectors paper_id with
  | some connector => fetchWith connector paper_id
  | none =>
    match probeConnectors paper_id connectors with
    | .error e => .error e
    | .ok (some (connector, normalized_id)) => fetchWith connector normalized_id
    | .ok none =>
      if pyStartsWith paper_id "doi:" then
        let doi := pyReplace paper_id "doi:" ""
        match works_doi doi with
        | .error _ => .ok none
        | .ok none => .ok none
        | .ok (some crossref_data) =>
          if jTruthy crossref_data then .ok (crossref_to_paper crossref_data)
          else .ok none
      else .ok none

/-! ## `CitationGraphBuilder.build_citation_graph`

`citation_graph_builder.py` lines 23-109.  The three network-facing
helpers are the environment; `getMetadata` is `_get_paper_metadata`
(whose uncaught exceptions the per-paper `try` swallows), `getCiting` and
`getCited` are `_get_citing_papers` / `_get_cited_papers` (dicts returned
as insertion-ordered pair lists). -/

structure BuildEnv where
  getMetadata : String → Except Unit (Option Paper)
  getCiting : String → Nat → Except Unit (List (String × Paper))
  getCited : String → Nat → Except Unit (List (String × Paper))

/-- The insertion-ordered dict `papers_dict`. -/
abbrev PaperDict := List (String × Paper)

/-- `paper_id in papers_dict`. -/
def dictHas (d : PaperDict) (k : String) : Bool :=
  d.any fun e => e.1 == k

/-- `papers_dict[k] = v` (overwrite in place, append when new). -/
def dictSet (d : PaperDict) (k : String) (v : Paper) : PaperDict :=
  if dictHas d k then d.map fun e => if e.1 == k then (k, v) else e
  else d ++ [(k, v)]

/-- `if k not in papers_dict: papers_dict[k] = v`. -/
def dictSetDefault (d : PaperDict) (k : String) (v : Paper) : PaperDict :=
  if dictHas d k then d else d ++ [(k, v)]

/-- `s.add(x)` on a set modelled as a duplicate-free list. -/
def setAdd (l : List String) (x : String) : List String :=
  if x ∈ l then l else l ++ [x]

/-- The traversal state of one `build_citation_graph` call. -/
structure BuildState where
  papersDict : PaperDict
  links : List CitationLink
  toProcess : List String
  processed : List String

/-- The body of the `for citing_id, citing_paper in ...` /
`for cited_id, cited_paper in ...` loops; `mk` builds the appended link
(`citing_id -> paper_id` in the citing direction, `paper_id -> cited_id`
in the cited direction). -/
def addNeighbor (mk : String → CitationLink) (s : BuildState)
    (cp : String × Paper) : BuildState :=
  { s with
    papersDict := dictSetDefault s.papersDict cp.1 cp.2
    toProcess := if cp.1 ∈ s.processed then s.toProcess else setAdd s.toProcess cp.1
    links := s.links ++ [mk cp.1] }

/-- One direction of expansion inside the `try` block.  When the call
raises, the state is returned unchanged together with `true` (control
transfers to the `except` handler); otherwise the discovered neighbors are
folded into the state. -/
def expandCall (res : Except Unit (List (String × Paper)))
    (mk : String → CitationLink) (st : BuildState) : BuildState × Bool :=
  match res with
  | .error _ => (st, true)
  | .ok discovered => (discovered.foldl (addNeighbor mk) st, false)

/-- `if direction in ["both", "citing"]`: get the citing papers and fold
them in; outside those directions the state passes through untouched. -/
def citingCall (env : BuildEnv) (max_citations : Nat) (direction : String)
    (paper_id : String) (st : BuildState) : BuildState × Bool :=
  if direction = "both" ∨ direction = "citing" then
    expandCall (env.getCiting paper_id max_citations)
      (fun citing_id => ⟨citing_id, paper_id⟩) st
  else (st, false)

/-- `if direction in ["both", "cited"]`, link direction `paper_id -> cited_id`. -/
def citedCall (env : BuildEnv) (max_citations : Nat) (direction : String)
    (paper_id : String) (st : BuildState) : BuildState × Bool :=
  if direction = "both" ∨ direction = "cited" then
    expandCall (env.getCited paper_id max_citations)
      (fun cited_id => ⟨paper_id, cited_id⟩) st
  else (st, false)

/-- The `if current_depth < depth` block: the citing direction, then —
unless the citing call raised — the cited direction. -/
def expandPaper (env : BuildEnv) (max_citations : Nat) (direction : String)
    (paper_id : String) (st1 : BuildState) : BuildState :=
  if (citingCall env max_citations direction paper_id st1).2 then
    (citingCall env max_citations direction paper_id st1).1
  else
    (citedCall env max_citations direction paper_id
      (citingCall env max_citations direction paper_id st1).1).1

/-- Processing of one id of the current batch, i.e. one iteration of
`for paper_id in current_batch`.  `expand` is the level-constant value of
`current_depth < depth`.  The `try/except` around the body surfaces as
follows: an exception from `getMetadata` lands in the handler, which does
`processed_papers.add(paper_id)` on the state as mutated so far; an
exception from an expansion call skips the rest of the `try` block and
likewise reaches the handler — since the handler performs exactly the
`processed_papers.add(paper_id)` that the normal path also ends with, the
two exits coincide after `expandPaper`. -/
def processPaper (env : BuildEnv) (max_citations : Nat) (direction : String)
    (expand : Bool) (st : BuildState) (paper_id : String) : BuildState :=
  if paper_id ∈ st.processed then st
  else
    match env.getMetadata paper_id with
    | .error _ => { st with processed := setAdd st.processed paper_id }
    | .ok none => st
    | .ok (some paper) =>
      let st1 := { st with papersDict := dictSet st.papersDict paper_id paper }
      let st4 := if expand then
          expandPaper env max_citations direction paper_id st1
        else st1
      { st4 with processed := setAdd st4.processed paper_id }

/-- The `for current_depth in range(depth + 1)` loop; `fuel` is the number
of remaining iterations, `current_depth` the loop counter.  Each iteration
first checks `if not papers_to_process: break`, snapshots the batch,
resets the frontier and folds `processPaper` over the batch. -/
def runLevels (env : BuildEnv) (depth : Int) (max_citations : Nat)
    (direction : String) : Nat → Nat → BuildState → BuildState
  | 0, _, st => st
  | fuel + 1, current_depth, st =>
    if st.toProcess.isEmpty then st
    else
      let current_batch := st.toProcess
      let expand := decide ((current_depth : Int) < depth)
      let st1 := current_batch.foldl (processPaper env max_citations direction expand)
        { st with toProcess := [] }
      runLevels env depth max_citations direction fuel (current_depth + 1) st1

/-- `set(paper_ids)`: duplicate-free, first occurrence kept. -/
def pySet (ids : List String) : List String :=
  ids.foldl setAdd []

/-- The final traversal state of `build_citation_graph`. -/
def finalState (env : BuildEnv) (paper_ids : List String) (depth : Int)
    (max_citations : Nat) (direction : String) : BuildState :=
  runLevels env depth max_citations direction (depth + 1).toNat 0
    ⟨[], [], pySet paper_ids, []⟩

/-- `build_citation_graph`: `CitationGraph(nodes=list(papers_dict.values()),
links=citation_links)`.  `depth` is a Python `int`: a negative value makes
`range(depth + 1)` empty. -/
def build_citation_graph (env : BuildEnv) (paper_ids : List String)
    (depth : Int) (max_citations : Nat) (direction : String) : CitationGraph :=
  let st := finalState env paper_ids depth max_citations direction
  ⟨st.papersDict.map (fun e => e.2), st.links⟩

/-- The id strings under which papers are recorded in a node dict. -/
def dictKeys (d : PaperDict) : List String :=
  d.map fun e => e.1

/-- The id strings under which papers are recorded in the node dict. -/
def stateKeys (st : BuildState) : List String :=
  dictKeys st.papersDict

/-! ## Traversal invariants and mock environments (definitions) -/

/-- The simulation relation between a traversal and the same traversal
with a larger depth: identical visited sets, node keys included. -/
def KeysLe (a b : BuildState) : Prop :=
  a.processed = b.processed ∧ stateKeys a ⊆ stateKeys b

/-- An environment whose delivered papers carry exactly the id under which
they are delivered (this is how `_get_citing_papers` and
`_get_cited_papers` key their result dicts: `papers[paper.paper_id] = paper`
and `papers[ref_id] = ref_paper` for the id the paper was fetched under). -/
def CoherentEnv (env : BuildEnv) : Prop :=
  (∀ pid p, env.getMetadata pid = .ok (some p) → p.paper_id = pid) ∧
  (∀ pid m l, env.getCiting pid m = .ok l → ∀ cp ∈ l, cp.2.paper_id = cp.1) ∧
  (∀ pid m l, env.getCited pid m = .ok l → ∀ cp ∈ l, cp.2.paper_id = cp.1)

def DictCoherent (st : BuildState) : Prop :=
  ∀ e ∈ st.papersDict, e.2.paper_id = e.1

def LinksOk (st : BuildState) : Prop :=
  ∀ l ∈ st.links, l.source_id ∈ stateKeys st ∧ l.target_id ∈ stateKeys st

/-! ## Concrete environments for witnesses and counterexamples -/

/-- A minimal mock `Paper` carrying the id it is delivered under. -/
def mockPaper (pid : String) : Paper :=
  { paper_id := pid, title := pid, authors := [], source := "mock" }

/-- Mock data source: every id resolves; `"s1"` and `"s2"` both cite the
same paper `"n"` (the co-cited scenario of the spec). -/
def cocitedEnv : BuildEnv where
  getMetadata := fun pid => .ok (some (mockPaper pid))
  getCiting := fun _ _ => .ok []
  getCited := fun pid _ =>
    if pid = "s1" then .ok [("n", mockPaper "n")]
    else if pid = "s2" then .ok [("n", mockPaper "n")]
    else .ok []

/-- Mock data source where metadata for `"a"` is a typed failure (`None`
without an exception), while `"a"` keeps being rediscovered: `"s"` cites
`"a"` and `"b"`, and `"b"` cites `"a"` again one level later. -/
def retryEnv : BuildEnv where
  getMetadata := fun pid => if pid = "a" then .ok none else .ok (some (mockPaper pid))
  getCiting := fun _ _ => .ok []
  getCited := fun pid _ =>
    if pid = "s" then .ok [("a", mockPaper "a"), ("b", mockPaper "b")]
    else if pid = "b" then .ok [("a", mockPaper "a")]
    else .ok []

/-- Mock data source whose metadata lookups always raise. -/
def raisingEnv : BuildEnv where
  getMetadata := fun _ => .error ()
  getCiting := fun _ _ => .ok []
  getCited := fun _ _ => .ok []

/-- Mock data source where nothing resolves (typed failures only). -/
def nullEnv : BuildEnv where
  getMetadata := fun _ => .ok none
  getCiting := fun _ _ => .ok []
  getCited := fun _ _ => .ok []

/-- The real PubMed connector lifted into the resolver interface (its
`parse_paper_id` never raises); its metadata lookup is irrelevant to the
routing scenario and reports not-found. -/
def pubmedResolver : ResolverConnector where
  parse_paper_id := fun s => .ok (PubMedConnector.parse_paper_id s)
  get_paper_metadata := fun _ => .ok none

/-- Mock Crossref `Works.doi`: the DOI `10.1/xyz` resolves to a work with
title `"T"`; everything else is not found. -/
def worksWithT : String → Except Unit (Option JVal) := fun d =>
  if d = "10.1/xyz" then
    .ok (some (.obj [("DOI", .s "10.1/xyz"), ("title", .arr [.s "T"])]))
  else .ok none

/-- A builder environment whose metadata path is the embedded
`_get_paper_metadata` over the PubMed-only registry and the mock Crossref
lookup; the expander is the empty mock. -/
def doiFallbackEnv : BuildEnv where
  getMetadata := get_paper_metadata [("pubmed", pubmedResolver)] worksWithT
  getCiting := fun _ _ => .ok []
  getCited := fun _ _ => .ok []

/-! ## Facts about the string layer -/

theorem toList_append (a b : String) : (a ++ b).toList = a.toList ++ b.toList :=
  rfl

theorem strPre_self_append (p t : List Char) : strPre p (p ++ t) = true := by
  induction p with
  | nil => rfl
  | cons a as ih => simp [strPre, ih]

theorem pyStartsWith_append (p b : String) : pyStartsWith (p ++ b) p = true := by
  unfold pyStartsWith
  rw [toList_append]
  exact strPre_self_append _ _

/-! ## Dictionary lemmas -/

theorem dictHas_iff {d : PaperDict} {k : String} :
    dictHas d k = true ↔ k ∈ dictKeys d := by
  simp [dictHas, dictKeys, List.any_eq_true]

theorem dictKeys_append (d₁ d₂ : PaperDict) :
    dictKeys (d₁ ++ d₂) = dictKeys d₁ ++ dictKeys d₂ := by
  simp [dictKeys]

theorem dictKeys_dictSet (d : PaperDict) (k : String) (v : Paper) :
    dictKeys (dictSet d k v) =
      if dictHas d k then dictKeys d else dictKeys d ++ [k] := by
  unfold dictSet
  split
  · simp only [dictKeys, List.map_map]
    apply List.map_congr_left
    intro e _
    by_cases h : e.1 = k
    · simp [h]
    · simp [h]
  · simp [dictKeys]

theorem mem_dictKeys_dictSet {d : PaperDict} {k x : String} {v : Paper} :
    x ∈ dictKeys (dictSet d k v) ↔ x ∈ dictKeys d ∨ x = k := by
  rw [dictKeys_dictSet]
  split
  · rename_i h
    constructor
    · exact Or.inl
    · rintro (hx | rfl)
      · exact hx
      · exact dictHas_iff.mp h
  · simp

theorem nodup_dictKeys_dictSet {d : PaperDict} {k : String} {v : Paper}
    (h : (dictKeys d).Nodup) : (dictKeys (dictSet d k v)).Nodup := by
  rw [dictKeys_dictSet]
  split
  · exact h
  · rename_i hh
    have : k ∉ dictKeys d := fun hk => hh (dictHas_iff.mpr hk)
    simp [List.nodup_append, h, this]

theorem entry_dictSet {d : PaperDict} {k : String} {v : Paper} {e : String × Paper}
    (h : e ∈ dictSet d k v) : e ∈ d ∨ e = (k, v) := by
  unfold dictSet at h
  split at h
  · rcases List.mem_map.mp h with ⟨e₀, he₀, heq⟩
    by_cases hk : e₀.1 = k
    · right
      simp [hk] at heq
      exact heq.symm
    · left
      simp [hk] at heq
      exact heq ▸ he₀
  · rcases List.mem_append.mp h with h | h
    · exact Or.inl h
    · right
      simpa using h

theorem dictKeys_dictSetDefault (d : PaperDict) (k : String) (v : Paper) :
    dictKeys (dictSetDefault d k v) =
      if dictHas d k then dictKeys d else dictKeys d ++ [k] := by
  unfold dictSetDefault
  split <;> simp_all [dictKeys]

theorem mem_dictKeys_dictSetDefault {d : PaperDict} {k x : String} {v : Paper} :
    x ∈ dictKeys (dictSetDefault d k v) ↔ x ∈ dictKeys d ∨ x = k := by
  rw [dictKeys_dictSetDefault]
  split
  · rename_i h
    constructor
    · exact Or.inl
    · rintro (hx | rfl)
      · exact hx
      · exact dictHas_iff.mp h
  · simp

theorem nodup_dictKeys_dictSetDefault {d : PaperDict} {k : String} {v : Paper}
    (h : (dictKeys d).Nodup) : (dictKeys (dictSetDefault d k v)).Nodup := by
  rw [dictKeys_dictSetDefault]
  split
  · exact h
  · rename_i hh
    have : k ∉ dictKeys d := fun hk => hh (dictHas_iff.mpr hk)
    simp [List.nodup_append, h, this]

theorem entry_dictSetDefault {d : PaperDict} {k : String} {v : Paper}
    {e : String × Paper} (h : e ∈ dictSetDefault d k v) : e ∈ d ∨ e = (k, v) := by
  unfold dictSetDefault at h
  split at h
  · exact Or.inl h
  · rcases List.mem_append.mp h with h | h
    · exact Or.inl h
    · right
      simpa using h

/-! ## Generic fold lemmas -/

theorem foldl_inv {α : Type} {P : BuildState → Prop}
    {f : BuildState → α → BuildState}
    (hstep : ∀ s a, P s → P (f s a)) :
    ∀ (l : List α) (s : BuildState), P s → P (l.foldl f s) := by
  intro l
  induction l with
  | nil => intro s hs; exact hs
  | cons a as ih => intro s hs; exact ih _ (hstep s a hs)

theorem foldl_chain {α : Type} {R : BuildState → BuildState → Prop}
    {f : BuildState → α → BuildState}
    (hrefl : ∀ s, R s s)
    (htrans : ∀ a b c, R a b → R b c → R a c)
    (hstep : ∀ s x, R s (f s x)) :
    ∀ (l : List α) (s : BuildState), R s (l.foldl f s) := by
  intro l
  induction l with
  | nil => intro s; exact hrefl s
  | cons a as ih => intro s; exact htrans _ _ _ (hstep s a) (ih (f s a))

theorem foldl_rel2 {α : Type} {R : BuildState → BuildState → Prop}
    {f g : BuildState → α → BuildState}
    (hstep : ∀ a b x, R a b → R (f a x) (g b x)) :
    ∀ (l : List α) (a b : BuildState), R a b → R (l.foldl f a) (l.foldl g b) := by
  intro l
  induction l with
  | nil => intro a b h; exact h
  | cons x xs ih => intro a b h; exact ih _ _ (hstep a b x h)

/-! ## `addNeighbor` facts -/

theorem addNeighbor_processed (mk : String → CitationLink) (s : BuildState)
    (cp : String × Paper) : (addNeighbor mk s cp).processed = s.processed :=
  rfl

theorem addNeighbor_keys_sub (mk : String → CitationLink) (s : BuildState)
    (cp : String × Paper) :
    stateKeys s ⊆ stateKeys (addNeighbor mk s cp) := by
  intro x hx
  exact mem_dictKeys_dictSetDefault.mpr (Or.inl hx)

theorem foldl_addNeighbor_processed (mk : String → CitationLink)
    (l : List (String × Paper)) (s : BuildState) :
    (l.foldl (addNeighbor mk) s).processed = s.processed := by
  have := foldl_chain (R := fun a b => b.processed = a.processed)
    (fun _ => rfl) (fun a b c h₁ h₂ => h₂.trans h₁)
    (fun s cp => addNeighbor_processed mk s cp) l s
  exact this

theorem foldl_addNeighbor_keys_sub (mk : String → CitationLink)
    (l : List (String × Paper)) (s : BuildState) :
    stateKeys s ⊆ stateKeys (l.foldl (addNeighbor mk) s) := by
  exact foldl_chain (R := fun a b => stateKeys a ⊆ stateKeys b)
    (fun _ => List.Subset.refl _) (fun a b c h₁ h₂ => h₁.trans h₂)
    (fun s cp => addNeighbor_keys_sub mk s cp) l s

theorem addNeighbor_keys_mono {a b : BuildState}
    (mk : String → CitationLink) (cp : String × Paper)
    (h : stateKeys a ⊆ stateKeys b) :
    stateKeys (addNeighbor mk a cp) ⊆ stateKeys (addNeighbor mk b cp) := by
  intro x hx
  rcases mem_dictKeys_dictSetDefault.mp hx with hx | rfl
  · exact mem_dictKeys_dictSetDefault.mpr (Or.inl (h hx))
  · exact mem_dictKeys_dictSetDefault.mpr (Or.inr rfl)

theorem addNeighbor_nodup (mk : String → CitationLink) (s : BuildState)
    (cp : String × Paper) (h : (stateKeys s).Nodup) :
    (stateKeys (addNeighbor mk s cp)).Nodup :=
  nodup_dictKeys_dictSetDefault h

/-! ## `processPaper` facts -/

theorem dictSet_keys_sub {d : PaperDict} (k : String) (v : Paper) :
    dictKeys d ⊆ dictKeys (dictSet d k v) := by
  intro x hx
  exact mem_dictKeys_dictSet.mpr (Or.inl hx)


/-- Any state property preserved by single neighbor insertions is
preserved by one direction call. -/
theorem expandCall_inv {P : BuildState → Prop} {mk : String → CitationLink}
    {res : Except Unit (List (String × Paper))} {st : BuildState}
    (hstep : ∀ s cp, P s → P (addNeighbor mk s cp)) (hst : P st) :
    P (expandCall res mk st).1 := by
  cases res with
  | error e => exact hst
  | ok l => exact foldl_inv hstep l st hst

theorem citingCall_inv {P : BuildState → Prop} {env : BuildEnv} {m : Nat}
    {dir pid : String} {st : BuildState}
    (hstep : ∀ mk s cp, P s → P (addNeighbor mk s cp)) (hst : P st) :
    P (citingCall env m dir pid st).1 := by
  unfold citingCall
  split
  · exact expandCall_inv (hstep _) hst
  · exact hst

theorem citedCall_inv {P : BuildState → Prop} {env : BuildEnv} {m : Nat}
    {dir pid : String} {st : BuildState}
    (hstep : ∀ mk s cp, P s → P (addNeighbor mk s cp)) (hst : P st) :
    P (citedCall env m dir pid st).1 := by
  unfold citedCall
  split
  · exact expandCall_inv (hstep _) hst
  · exact hst

theorem expandPaper_inv {P : BuildState → Prop} {env : BuildEnv} {m : Nat}
    {dir pid : String} {st1 : BuildState}
    (hstep : ∀ mk s cp, P s → P (addNeighbor mk s cp)) (hst : P st1) :
    P (expandPaper env m dir pid st1) := by
  unfold expandPaper
  split
  · exact citingCall_inv hstep hst
  · exact citedCall_inv hstep (citingCall_inv hstep hst)

theorem expandCall_processed (res : Except Unit (List (String × Paper)))
    (mk : String → CitationLink) (st : BuildState) :
    (expandCall res mk st).1.processed = st.processed := by
  cases res with
  | error e => rfl
  | ok l => exact foldl_addNeighbor_processed mk l st

theorem citingCall_processed (env : BuildEnv) (m : Nat) (dir pid : String)
    (st : BuildState) :
    (citingCall env m dir pid st).1.processed = st.processed := by
  unfold citingCall
  split
  · exact expandCall_processed _ _ _
  · rfl

theorem citedCall_processed (env : BuildEnv) (m : Nat) (dir pid : String)
    (st : BuildState) :
    (citedCall env m dir pid st).1.processed = st.processed := by
  unfold citedCall
  split
  · exact expandCall_processed _ _ _
  · rfl

theorem expandPaper_processed (env : BuildEnv) (m : Nat) (dir pid : String)
    (st1 : BuildState) :
    (expandPaper env m dir pid st1).processed = st1.processed := by
  unfold expandPaper
  split
  · exact citingCall_processed _ _ _ _ _
  · rw [citedCall_processed, citingCall_processed]

/-- Neighbor insertion only grows the key set, so key growth is such a
property (relative to a fixed lower list). -/
theorem processPaper_keys_sub (env : BuildEnv) (m : Nat) (dir : String)
    (ex : Bool) (st : BuildState) (pid : String) :
    stateKeys st ⊆ stateKeys (processPaper env m dir ex st pid) := by
  unfold processPaper
  split
  · exact List.Subset.refl _
  · split
    · exact List.Subset.refl _
    · exact List.Subset.refl _
    · rename_i paper _
      have h1 : stateKeys st ⊆
          stateKeys { st with papersDict := dictSet st.papersDict pid paper } :=
        dictSet_keys_sub pid paper
      cases ex with
      | false => exact h1
      | true =>
        refine h1.trans ?_
        exact expandPaper_inv
          (P := fun s =>
            stateKeys { st with papersDict := dictSet st.papersDict pid paper } ⊆ stateKeys s)
          (fun mk s cp hs => hs.trans (addNeighbor_keys_sub mk s cp))
          (List.Subset.refl _)

theorem processPaper_nodup (env : BuildEnv) (m : Nat) (dir : String)
    (ex : Bool) (st : BuildState) (pid : String)
    (h : (stateKeys st).Nodup) :
    (stateKeys (processPaper env m dir ex st pid)).Nodup := by
  unfold processPaper
  split
  · exact h
  · split
    · exact h
    · exact h
    · rename_i paper _
      have h1 : (stateKeys { st with papersDict := dictSet st.papersDict pid paper }).Nodup :=
        nodup_dictKeys_dictSet h
      cases ex with
      | false => exact h1
      | true =>
        exact expandPaper_inv (P := fun s => (stateKeys s).Nodup)
          (fun mk s cp hs => addNeighbor_nodup mk s cp hs) h1

/-! ## `runLevels` facts -/

theorem runLevels_keys_sub (env : BuildEnv) (depth : Int) (m : Nat)
    (dir : String) :
    ∀ (fuel c : Nat) (st : BuildState),
      stateKeys st ⊆ stateKeys (runLevels env depth m dir fuel c st) := by
  intro fuel
  induction fuel with
  | zero => intro c st; exact List.Subset.refl _
  | succ f ih =>
    intro c st
    unfold runLevels
    split
    · exact List.Subset.refl _
    · refine List.Subset.trans ?_ (ih _ _)
      refine List.Subset.trans (?_ :
        stateKeys st ⊆ stateKeys { st with toProcess := [] }) ?_
      · exact List.Subset.refl _
      · exact foldl_inv
          (P := fun s => stateKeys { st with toProcess := [] } ⊆ stateKeys s)
          (fun s a hs => hs.trans (processPaper_keys_sub env m dir _ s a))
          _ _ (List.Subset.refl _)

theorem runLevels_nodup (env : BuildEnv) (depth : Int) (m : Nat)
    (dir : String) :
    ∀ (fuel c : Nat) (st : BuildState),
      (stateKeys st).Nodup → (stateKeys (runLevels env depth m dir fuel c st)).Nodup := by
  intro fuel
  induction fuel with
  | zero => intro c st h; exact h
  | succ f ih =>
    intro c st h
    unfold runLevels
    split
    · exact h
    · refine ih _ _ ?_
      exact foldl_inv (P := fun s => (stateKeys s).Nodup)
        (fun s a hs => processPaper_nodup env m dir _ s a hs) _ _ h

/-! ## Link-shape-specific invariance -/

theorem citingCall_inv2 {P : BuildState → Prop} {env : BuildEnv} {m : Nat}
    {dir pid : String} {st : BuildState}
    (h1 : ∀ s cp, P s →
      P (addNeighbor (fun citing_id => (⟨citing_id, pid⟩ : CitationLink)) s cp))
    (hst : P st) : P (citingCall env m dir pid st).1 := by
  unfold citingCall
  split
  · exact expandCall_inv h1 hst
  · exact hst

theorem citedCall_inv2 {P : BuildState → Prop} {env : BuildEnv} {m : Nat}
    {dir pid : String} {st : BuildState}
    (h2 : ∀ s cp, P s →
      P (addNeighbor (fun cited_id => (⟨pid, cited_id⟩ : CitationLink)) s cp))
    (hst : P st) : P (citedCall env m dir pid st).1 := by
  unfold citedCall
  split
  · exact expandCall_inv h2 hst
  · exact hst

theorem expandPaper_inv2 {P : BuildState → Prop} {env : BuildEnv} {m : Nat}
    {dir pid : String} {st1 : BuildState}
    (h1 : ∀ s cp, P s →
      P (addNeighbor (fun citing_id => (⟨citing_id, pid⟩ : CitationLink)) s cp))
    (h2 : ∀ s cp, P s →
      P (addNeighbor (fun cited_id => (⟨pid, cited_id⟩ : CitationLink)) s cp))
    (hst : P st1) : P (expandPaper env m dir pid st1) := by
  unfold expandPaper
  split
  · exact citingCall_inv2 h1 hst
  · exact citedCall_inv2 h2 (citingCall_inv2 h1 hst)

/-! ## Depth monotonicity machinery -/

theorem dictSet_keys_mono {da db : PaperDict} (k : String) (v : Paper)
    (h : dictKeys da ⊆ dictKeys db) :
    dictKeys (dictSet da k v) ⊆ dictKeys (dictSet db k v) := by
  intro x hx
  rcases mem_dictKeys_dictSet.mp hx with hx | rfl
  · exact mem_dictKeys_dictSet.mpr (Or.inl (h hx))
  · exact mem_dictKeys_dictSet.mpr (Or.inr rfl)

/-- One batch element: processing without expansion is simulated by
processing with expansion. -/
theorem processPaper_expand_mono (env : BuildEnv) (m : Nat) (dir : String)
    {a b : BuildState} (x : String) (h : KeysLe a b) :
    KeysLe (processPaper env m dir false a x) (processPaper env m dir true b x) := by
  obtain ⟨hp, hk⟩ := h
  by_cases hx : x ∈ a.processed
  · have hx' : x ∈ b.processed := hp ▸ hx
    simp only [processPaper, if_pos hx, if_pos hx']
    exact ⟨hp, hk⟩
  · have hx' : x ∉ b.processed := fun hc => hx (hp ▸ hc)
    simp only [processPaper, if_neg hx, if_neg hx']
    cases hm : env.getMetadata x with
    | error e =>
      refine ⟨by simp [hp], hk⟩
    | ok r =>
      cases r with
      | none => exact ⟨hp, hk⟩
      | some paper =>
        simp only
        set st1a : BuildState := { a with papersDict := dictSet a.papersDict x paper }
        set st1b : BuildState := { b with papersDict := dictSet b.papersDict x paper }
        have hk1 : stateKeys st1a ⊆ stateKeys st1b :=
          dictSet_keys_mono x paper hk
        have hkeys : stateKeys st1a ⊆
            stateKeys (expandPaper env m dir x st1b) := by
          refine hk1.trans ?_
          exact expandPaper_inv (P := fun s => stateKeys st1b ⊆ stateKeys s)
            (fun mk s cp hs => hs.trans (addNeighbor_keys_sub mk s cp))
            (List.Subset.refl _)
        have hproc : (expandPaper env m dir x st1b).processed = b.processed :=
          expandPaper_processed env m dir x st1b
        constructor
        · simp [hproc, hp]
        · exact hkeys

/-- While `current_depth < depth` holds in both runs, the two traversals
agree; at the last level of the shallower run, its batch is processed
without expansion and the deeper run simulates it; afterwards the deeper
run only grows its key set. -/
theorem runLevels_depth_succ (env : BuildEnv) (m : Nat) (dir : String) (D : Int) :
    ∀ (fuel c : Nat) (st : BuildState), (c : Int) + fuel = D + 1 →
      stateKeys (runLevels env D m dir fuel c st) ⊆
        stateKeys (runLevels env (D + 1) m dir (fuel + 1) c st) := by
  intro fuel
  induction fuel with
  | zero =>
    intro c st _
    exact runLevels_keys_sub env (D + 1) m dir 1 c st
  | succ f ih =>
    intro c st hc
    by_cases hemp : st.toProcess.isEmpty
    · simp only [runLevels, if_pos hemp]
      exact List.Subset.refl _
    · have hcD1 : ((c : Int) < D + 1) := by omega
      simp only [runLevels, if_neg hemp]
      by_cases hcD : (c : Int) < D
      · rw [decide_eq_true hcD, decide_eq_true hcD1]
        exact ih (c + 1) _ (by push_cast; omega)
      · have hf : f = 0 := by omega
        subst hf
        have hcD' : decide ((c : Int) < D) = false := by
          simp [hcD]
        rw [hcD', decide_eq_true hcD1]
        simp only [runLevels]
        have hsim : KeysLe
            (st.toProcess.foldl (processPaper env m dir false) { st with toProcess := [] })
            (st.toProcess.foldl (processPaper env m dir true) { st with toProcess := [] }) :=
          foldl_rel2 (fun a b x h => processPaper_expand_mono env m dir x h)
            st.toProcess _ _ ⟨rfl, List.Subset.refl _⟩
        refine hsim.2.trans ?_
        exact runLevels_keys_sub env (D + 1) m dir 1 (c + 1) _

/-! ## Coherence: every dict entry's `Paper.paper_id` equals its key -/

theorem foldl_inv_mem {α : Type} {P : BuildState → Prop}
    {f : BuildState → α → BuildState} :
    ∀ (l : List α), (∀ s a, a ∈ l → P s → P (f s a)) →
      ∀ s, P s → P (l.foldl f s) := by
  intro l
  induction l with
  | nil => intro _ s hs; exact hs
  | cons a as ih =>
    intro hstep s hs
    exact ih (fun s x hx hsx => hstep s x (List.mem_cons_of_mem a hx) hsx) _
      (hstep s a (List.mem_cons_self a as) hs)

theorem addNeighbor_coherent {mk : String → CitationLink} {s : BuildState}
    {cp : String × Paper} (hcp : cp.2.paper_id = cp.1) (h : DictCoherent s) :
    DictCoherent (addNeighbor mk s cp) := by
  intro e he
  rcases entry_dictSetDefault he with he | rfl
  · exact h e he
  · exact hcp

theorem expandCall_coherent {res : Except Unit (List (String × Paper))}
    {mk : String → CitationLink} {st : BuildState}
    (hres : ∀ l, res = .ok l → ∀ cp ∈ l, cp.2.paper_id = cp.1)
    (h : DictCoherent st) : DictCoherent (expandCall res mk st).1 := by
  cases res with
  | error e => exact h
  | ok l =>
    exact foldl_inv_mem l
      (fun s cp hcp hs => addNeighbor_coherent (hres l rfl cp hcp) hs) st h

theorem citingCall_coherent {env : BuildEnv} {m : Nat} {dir pid : String}
    {st : BuildState} (henv : CoherentEnv env) (h : DictCoherent st) :
    DictCoherent (citingCall env m dir pid st).1 := by
  unfold citingCall
  split
  · exact expandCall_coherent (fun l hl => henv.2.1 pid m l hl) h
  · exact h

theorem citedCall_coherent {env : BuildEnv} {m : Nat} {dir pid : String}
    {st : BuildState} (henv : CoherentEnv env) (h : DictCoherent st) :
    DictCoherent (citedCall env m dir pid st).1 := by
  unfold citedCall
  split
  · exact expandCall_coherent (fun l hl => henv.2.2 pid m l hl) h
  · exact h

theorem expandPaper_coherent {env : BuildEnv} {m : Nat} {dir pid : String}
    {st1 : BuildState} (henv : CoherentEnv env) (h : DictCoherent st1) :
    DictCoherent (expandPaper env m dir pid st1) := by
  unfold expandPaper
  split
  · exact citingCall_coherent henv h
  · exact citedCall_coherent henv (citingCall_coherent henv h)

theorem dictSet_coherent {d : PaperDict} {k : String} {v : Paper}
    (hv : v.paper_id = k) (h : ∀ e ∈ d, e.2.paper_id = e.1) :
    ∀ e ∈ dictSet d k v, e.2.paper_id = e.1 := by
  intro e he
  rcases entry_dictSet he with he | rfl
  · exact h e he
  · exact hv

theorem processPaper_coherent (env : BuildEnv) (m : Nat) (dir : String)
    (ex : Bool) (st : BuildState) (pid : String) (henv : CoherentEnv env)
    (h : DictCoherent st) : DictCoherent (processPaper env m dir ex st pid) := by
  unfold processPaper
  split
  · exact h
  · split
    · exact h
    · exact h
    · rename_i paper hm
      have h1 : DictCoherent { st with papersDict := dictSet st.papersDict pid paper } :=
        dictSet_coherent (henv.1 pid paper hm) h
      cases ex with
      | false => exact h1
      | true => exact expandPaper_coherent henv h1

theorem runLevels_coherent (env : BuildEnv) (depth : Int) (m : Nat)
    (dir : String) (henv : CoherentEnv env) :
    ∀ (fuel c : Nat) (st : BuildState),
      DictCoherent st → DictCoherent (runLevels env depth m dir fuel c st) := by
  intro fuel
  induction fuel with
  | zero => intro c st h; exact h
  | succ f ih =>
    intro c st h
    unfold runLevels
    split
    · exact h
    · refine ih _ _ ?_
      exact foldl_inv (P := DictCoherent)
        (fun s a hs => processPaper_coherent env m dir _ s a henv hs) _ _ h

/-! ## Link endpoints are recorded node-map keys -/

theorem addNeighbor_linksOk {pid : String} {mk : String → CitationLink}
    (hmk : ∀ cid, ((mk cid).source_id = cid ∨ (mk cid).source_id = pid) ∧
                  ((mk cid).target_id = cid ∨ (mk cid).target_id = pid))
    {s : BuildState} {cp : String × Paper}
    (h : LinksOk s ∧ pid ∈ stateKeys s) :
    LinksOk (addNeighbor mk s cp) ∧ pid ∈ stateKeys (addNeighbor mk s cp) := by
  obtain ⟨hl, hpid⟩ := h
  have hsub : stateKeys s ⊆ stateKeys (addNeighbor mk s cp) :=
    addNeighbor_keys_sub mk s cp
  have hcp1 : cp.1 ∈ stateKeys (addNeighbor mk s cp) :=
    mem_dictKeys_dictSetDefault.mpr (Or.inr rfl)
  refine ⟨?_, hsub hpid⟩
  intro l hlmem
  rcases List.mem_append.mp hlmem with hlmem | hlmem
  · obtain ⟨h₁, h₂⟩ := hl l hlmem
    exact ⟨hsub h₁, hsub h₂⟩
  · have : l = mk cp.1 := by simpa using hlmem
    subst this
    obtain ⟨h₁, h₂⟩ := hmk cp.1
    constructor
    · rcases h₁ with h₁ | h₁ <;> rw [h₁]
      · exact hcp1
      · exact hsub hpid
    · rcases h₂ with h₂ | h₂ <;> rw [h₂]
      · exact hcp1
      · exact hsub hpid

theorem expandPaper_linksOk {env : BuildEnv} {m : Nat} {dir pid : String}
    {st1 : BuildState} (h : LinksOk st1 ∧ pid ∈ stateKeys st1) :
    LinksOk (expandPaper env m dir pid st1) ∧
      pid ∈ stateKeys (expandPaper env m dir pid st1) := by
  refine expandPaper_inv2 (P := fun s => LinksOk s ∧ pid ∈ stateKeys s) ?_ ?_ h
  · intro s cp hs
    refine addNeighbor_linksOk ?_ hs
    intro cid
    exact ⟨Or.inl rfl, Or.inr rfl⟩
  · intro s cp hs
    refine addNeighbor_linksOk ?_ hs
    intro cid
    exact ⟨Or.inr rfl, Or.inl rfl⟩

theorem processPaper_linksOk (env : BuildEnv) (m : Nat) (dir : String)
    (ex : Bool) (st : BuildState) (pid : String)
    (h : LinksOk st) : LinksOk (processPaper env m dir ex st pid) := by
  unfold processPaper
  split
  · exact h
  · split
    · exact h
    · exact h
    · rename_i paper hm
      have h1 : LinksOk { st with papersDict := dictSet st.papersDict pid paper } := by
        intro l hlmem
        obtain ⟨h₁, h₂⟩ := h l hlmem
        exact ⟨dictSet_keys_sub pid paper h₁, dictSet_keys_sub pid paper h₂⟩
      have hpid1 : pid ∈
          stateKeys { st with papersDict := dictSet st.papersDict pid paper } :=
        mem_dictKeys_dictSet.mpr (Or.inr rfl)
      cases ex with
      | false => exact h1
      | true => exact (expandPaper_linksOk ⟨h1, hpid1⟩).1

theorem runLevels_linksOk (env : BuildEnv) (depth : Int) (m : Nat)
    (dir : String) :
    ∀ (fuel c : Nat) (st : BuildState),
      LinksOk st → LinksOk (runLevels env depth m dir fuel c st) := by
  intro fuel
  induction fuel with
  | zero => intro c st h; exact h
  | succ f ih =>
    intro c st h
    unfold runLevels
    split
    · exact h
    · refine ih _ _ ?_
      exact foldl_inv (P := LinksOk)
        (fun s a hs => processPaper_linksOk env m dir _ s a hs) _ _ h

/-! ## Claim C1 -/

/-- C1: the node dict of every `build_citation_graph` traversal keeps its
keys duplicate-free, so a neighbor discovered via two different edges is
recorded exactly once; when the environment delivers papers keyed by their
own `paper_id` (as `_get_citing_papers`/`_get_cited_papers` do), the
returned graph's nodes are pairwise distinct by `paper_id`; and in the
concrete co-cited scenario (two seeds citing the same `"n"`), the graph
has the three node ids `s1, n, s2` — one node for `"n"` — together with
exactly the two discovering edges. -/
theorem c1_node_dedup :
    ((∀ (env : BuildEnv) (ids : List String) (d : Int) (m : Nat) (dir : String),
        (stateKeys (finalState env ids d m dir)).Nodup) ∧
     (∀ (env : BuildEnv) (ids : List String) (d : Int) (m : Nat) (dir : String),
        CoherentEnv env →
        ((build_citation_graph env ids d m dir).nodes.map fun p => p.paper_id).Nodup)) ∧
    ((build_citation_graph cocitedEnv ["s1", "s2"] 1 20 "cited").nodes.map
        fun p => p.paper_id) = ["s1", "n", "s2"] ∧
    (build_citation_graph cocitedEnv ["s1", "s2"] 1 20 "cited").links =
      [⟨"s1", "n"⟩, ⟨"s2", "n"⟩] := by
  have hkeys : ∀ (env : BuildEnv) (ids : List String) (d : Int) (m : Nat) (dir : String),
      (stateKeys (finalState env ids d m dir)).Nodup := by
    intro env ids d m dir
    exact runLevels_nodup env d m dir _ 0 _ (by simp [stateKeys, dictKeys])
  refine ⟨⟨hkeys, ?_⟩, rfl, rfl⟩
  intro env ids d m dir henv
  have hco : DictCoherent (finalState env ids d m dir) := by
    exact runLevels_coherent env d m dir henv _ 0 _ (by intro e he; simp at he)
  have : ((build_citation_graph env ids d m dir).nodes.map fun p => p.paper_id) =
      stateKeys (finalState env ids d m dir) := by
    unfold build_citation_graph
    rw [List.map_map]
    exact List.map_congr_left fun e he => hco e he
  rw [this]
  exact hkeys env ids d m dir

/-- Witness for C1: the co-cited graph's node ids are duplicate-free,
obtained by instantiating the coherence hypothesis at `cocitedEnv`. -/
theorem c1_node_dedup_witness :
    ((build_citation_graph cocitedEnv ["s1", "s2"] 1 20 "cited").nodes.map
      fun p => p.paper_id).Nodup := by
  refine c1_node_dedup.1.2 cocitedEnv ["s1", "s2"] 1 20 "cited" ⟨?_, ?_, ?_⟩
  · intro pid p h
    simp only [cocitedEnv] at h
    cases h
    rfl
  · intro pid m l h cp hcp
    simp only [cocitedEnv] at h
    cases h
    simp at hcp
  · intro pid m l h cp hcp
    simp only [cocitedEnv] at h
    split at h
    · cases h
      simp at hcp
      subst hcp
      rfl
    · split at h
      · cases h
        simp at hcp
        subst hcp
        rfl
      · cases h
        simp at hcp

/-! ## Claim C5 -/

/-- C5 (amended): `build_citation_graph` never raises at all — per-node
failures are swallowed, and malformed input does not raise either: an
empty seed list or a negative `depth` (empty `range(depth+1)`) both
return the empty graph normally. -/
theorem c5_no_raise_empty_graph :
    (∀ (env : BuildEnv) (d : Int) (m : Nat) (dir : String),
        build_citation_graph env [] d m dir = ⟨[], []⟩) ∧
    (∀ (env : BuildEnv) (ids : List String) (m : Nat) (dir : String) (d : Int),
        d < 0 → build_citation_graph env ids d m dir = ⟨[], []⟩) := by
  constructor
  · intro env d m dir
    have hrun : ∀ (f c : Nat),
        runLevels env d m dir f c ⟨[], [], [], []⟩ = ⟨[], [], [], []⟩ := by
      intro f c
      cases f with
      | zero => rfl
      | succ f => simp [runLevels]
    unfold build_citation_graph finalState
    rw [show pySet [] = [] from rfl, hrun]
    rfl
  · intro env ids m dir d hd
    have hfuel : (d + 1).toNat = 0 := by omega
    unfold build_citation_graph finalState
    rw [hfuel]
    rfl

/-- Witness for C5 (amended): the negative-depth branch at `d = -1`. -/
theorem c5_no_raise_empty_graph_witness :
    build_citation_graph nullEnv ["doi:10.1/xyz"] (-1) 20 "both" = ⟨[], []⟩ :=
  c5_no_raise_empty_graph.2 nullEnv ["doi:10.1/xyz"] 20 "both" (-1) (by decide)

/-- Counterexample for C5 as stated: on the malformed inputs for which the
claim says the builder raises (`depth < 0`, empty seed list), the code
returns an ordinary empty `CitationGraph` instead of raising. -/
theorem c5_counterexample :
    build_citation_graph nullEnv [] 1 20 "both" = ⟨[], []⟩ ∧
    build_citation_graph nullEnv ["doi:10.1/xyz"] (-1) 20 "both" = ⟨[], []⟩ :=
  ⟨rfl, rfl⟩

/-! ## Claim C6 -/

/-- C6 (amended): when resolve-plus-fetch raises, the id is marked visited
and nothing else changes; when it fails by returning no paper (`None`),
the state is returned completely unchanged — in particular the id is NOT
marked visited.  In both cases the fold over the batch continues with the
next id. -/
theorem c6_failure_handling (env : BuildEnv) (m : Nat) (dir : String)
    (ex : Bool) (st : BuildState) (pid : String) (hnot : pid ∉ st.processed) :
    (env.getMetadata pid = .error () →
      processPaper env m dir ex st pid = { st with processed := setAdd st.processed pid }) ∧
    (env.getMetadata pid = .ok none →
      processPaper env m dir ex st pid = st) := by
  constructor <;> intro h <;> simp [processPaper, hnot, h]

/-- Witness for C6 (amended): a raising metadata call on an empty state. -/
theorem c6_failure_handling_witness :
    processPaper raisingEnv 5 "both" true ⟨[], [], [], []⟩ "x" =
      { papersDict := [], links := [], toProcess := [], processed := ["x"] } :=
  (c6_failure_handling raisingEnv 5 "both" true ⟨[], [], [], []⟩ "x"
    (by decide)).1 rfl

/-- Counterexample for C6 as stated: in `retryEnv` the id `"a"` fails by
typed failure (`getMetadata` returns `None`), yet after the whole
traversal `"a"` was never marked visited — so it is re-attempted whenever
rediscovered, contradicting "that id is marked visited". -/
theorem c6_counterexample :
    retryEnv.getMetadata "a" = .ok none ∧
    "a" ∉ (finalState retryEnv ["s"] 3 10 "cited").processed ∧
    "a" ∈ stateKeys (finalState retryEnv ["s"] 3 10 "cited") :=
  ⟨rfl, by decide, by decide⟩

/-! ## Claim C8 -/

/-- C8: with a fixed deterministic data source, every node id recorded by
the traversal at depth `d` is also recorded by the traversal at depth
`d + 1` — increasing the depth never removes nodes. -/
theorem c8_depth_monotone (env : BuildEnv) (ids : List String) (m : Nat)
    (dir : String) (d : Nat) (k : String)
    (h : k ∈ stateKeys (finalState env ids (d : Int) m dir)) :
    k ∈ stateKeys (finalState env ids ((d : Int) + 1) m dir) := by
  have hfuel1 : ((d : Int) + 1).toNat = d + 1 := by omega
  have hfuel2 : ((d : Int) + 1 + 1).toNat = (d + 1) + 1 := by omega
  unfold finalState at h ⊢
  rw [hfuel1] at h
  rw [hfuel2]
  exact runLevels_depth_succ env m dir (d : Int) (d + 1) 0 _ (by push_cast; omega) h

/-- Witness for C8: the seed `"s1"` is a node at depth `0` and stays a
node at depth `1`. -/
theorem c8_depth_monotone_witness :
    "s1" ∈ stateKeys (finalState cocitedEnv ["s1"] ((0 : Nat) : Int) 20 "cited") ∧
    "s1" ∈ stateKeys (finalState cocitedEnv ["s1"] (((0 : Nat) : Int) + 1) 20 "cited") :=
  ⟨by decide, c8_depth_monotone cocitedEnv ["s1"] 20 "cited" 0 "s1" (by decide)⟩

/-! ## Claim C9 -/

/-- C9: at `depth = 0` with a single seed whose resolve-and-fetch
succeeds, the returned graph is exactly one node — the seed's paper — and
no links. -/
theorem c9_depth_zero_single_seed (env : BuildEnv) (pid : String) (p : Paper)
    (m : Nat) (dir : String) (h : env.getMetadata pid = .ok (some p)) :
    build_citation_graph env [pid] 0 m dir = ⟨[p], []⟩ := by
  have hfuel : ((0 : Int) + 1).toNat = 1 := rfl
  simp [build_citation_graph, finalState, hfuel, pySet, runLevels, processPaper,
    h, dictSet, dictHas, setAdd]

/-- Witness for C9 at a concrete environment and seed. -/
theorem c9_depth_zero_single_seed_witness :
    build_citation_graph cocitedEnv ["arxiv:1111.1111"] 0 20 "both" =
      ⟨[mockPaper "arxiv:1111.1111"], []⟩ :=
  c9_depth_zero_single_seed cocitedEnv "arxiv:1111.1111"
    (mockPaper "arxiv:1111.1111") 20 "both" rfl

/-! ## Claim C10 -/

/-- C10: every link the builder ever appends has both its endpoints
present as keys of the node map — the traversal never produces a link to
an id that was not entered into `papers_dict`. -/
theorem c10_no_dangling_links (env : BuildEnv) (ids : List String) (d : Int)
    (m : Nat) (dir : String) (l : CitationLink)
    (h : l ∈ (finalState env ids d m dir).links) :
    l.source_id ∈ stateKeys (finalState env ids d m dir) ∧
    l.target_id ∈ stateKeys (finalState env ids d m dir) := by
  refine runLevels_linksOk env d m dir _ 0 _ ?_ l h
  intro l hl
  simp at hl

/-- Witness for C10: the first co-cited link has both endpoints recorded. -/
theorem c10_no_dangling_links_witness :
    ("s1" : String) ∈ stateKeys (finalState cocitedEnv ["s1", "s2"] 1 20 "cited") ∧
    ("n" : String) ∈ stateKeys (finalState cocitedEnv ["s1", "s2"] 1 20 "cited") :=
  c10_no_dangling_links cocitedEnv ["s1", "s2"] 1 20 "cited" ⟨"s1", "n"⟩ (by decide)

/-! ## Claims C3 and C4: `parse_paper_id` algebra -/

/-- Every arXiv parse output starts with `"arxiv:"`. -/
theorem arxiv_parse_starts (x : String) :
    pyStartsWith (ArxivConnector.parse_paper_id x) "arxiv:" = true := by
  unfold ArxivConnector.parse_paper_id
  split
  · assumption
  · split
    · exact pyStartsWith_append _ _
    · exact pyStartsWith_append _ _

theorem arxiv_parse_fix (y : String) (h : pyStartsWith y "arxiv:" = true) :
    ArxivConnector.parse_paper_id y = y := by
  unfold ArxivConnector.parse_paper_id
  rw [if_pos h]

/-- Every Google Scholar parse output starts with `"googlescholar:"`. -/
theorem gs_parse_starts (x : String) :
    pyStartsWith (GoogleScholarConnector.parse_paper_id x) "googlescholar:" = true := by
  unfold GoogleScholarConnector.parse_paper_id
  split
  · assumption
  · split
    · exact pyStartsWith_append _ _
    · exact pyStartsWith_append _ _

theorem gs_parse_fix (y : String) (h : pyStartsWith y "googlescholar:" = true) :
    GoogleScholarConnector.parse_paper_id y = y := by
  unfold GoogleScholarConnector.parse_paper_id
  rw [if_pos h]

/-- A PubMed parse either returns its input or something
`"pubmed:"`-headed. -/
theorem pubmed_parse_cases (x : String) :
    PubMedConnector.parse_paper_id x = x ∨
    pyStartsWith (PubMedConnector.parse_paper_id x) "pubmed:" = true := by
  unfold PubMedConnector.parse_paper_id
  split
  · left; rfl
  · split
    · right; exact pyStartsWith_append _ _
    · split
      · right; exact pyStartsWith_append _ _
      · left; rfl

theorem pubmed_parse_fix (y : String) (h : pyStartsWith y "pubmed:" = true) :
    PubMedConnector.parse_paper_id y = y := by
  unfold PubMedConnector.parse_paper_id
  rw [if_pos h]

/-- C3 (amended): `parse_paper_id` is idempotent for the arXiv, PubMed and
Google Scholar connectors, but NOT for the Semantic Scholar connector:
its bare-DOI branch maps `10.*` to `doi:10.*`, which a second application
wraps into `semanticscholar:doi:10.*`. -/
theorem c3_parse_idempotence :
    (∀ x, ArxivConnector.parse_paper_id (ArxivConnector.parse_paper_id x) =
      ArxivConnector.parse_paper_id x) ∧
    (∀ x, PubMedConnector.parse_paper_id (PubMedConnector.parse_paper_id x) =
      PubMedConnector.parse_paper_id x) ∧
    (∀ x, GoogleScholarConnector.parse_paper_id (GoogleScholarConnector.parse_paper_id x) =
      GoogleScholarConnector.parse_paper_id x) ∧
    ¬ (∀ x, SemanticScholarConnector.parse_paper_id (SemanticScholarConnector.parse_paper_id x) =
      SemanticScholarConnector.parse_paper_id x) := by
  refine ⟨?_, ?_, ?_, ?_⟩
  · intro x
    exact arxiv_parse_fix _ (arxiv_parse_starts x)
  · intro x
    rcases pubmed_parse_cases x with h | h
    · rw [h]
      exact h
    · exact pubmed_parse_fix _ h
  · intro x
    exact gs_parse_fix _ (gs_parse_starts x)
  · intro hall
    exact absurd (hall "10.1/xyz") (by decide)

/-- Counterexample for C3 as stated: the Semantic Scholar connector is not
idempotent at the bare DOI `"10.1/xyz"`. -/
theorem c3_counterexample :
    SemanticScholarConnector.parse_paper_id "10.1/xyz" = "doi:10.1/xyz" ∧
    SemanticScholarConnector.parse_paper_id "doi:10.1/xyz" =
      "semanticscholar:doi:10.1/xyz" ∧
    SemanticScholarConnector.parse_paper_id
        (SemanticScholarConnector.parse_paper_id "10.1/xyz") ≠
      SemanticScholarConnector.parse_paper_id "10.1/xyz" :=
  ⟨rfl, rfl, by decide⟩

/-- C4 (amended): only the PubMed connector obeys the "no-op means
unrecognized" convention — an input that is not `pubmed:`-headed, not a
PubMed URL and not all digits comes back unchanged; the arXiv, Semantic
Scholar and Google Scholar connectors instead wrap every otherwise
unrecognized input in their own namespace tag, so in the resolver's probe
they claim every such id. -/
theorem c4_noop_convention :
    (∀ x, pyStartsWith x "pubmed:" = false →
      pyIn "pubmed.ncbi.nlm.nih.gov" x = false →
      pyIsDigit x = false →
      PubMedConnector.parse_paper_id x = x) ∧
    ArxivConnector.parse_paper_id "not-an-arxiv-id" = "arxiv:not-an-arxiv-id" ∧
    SemanticScholarConnector.parse_paper_id "not-an-id" = "semanticscholar:not-an-id" ∧
    GoogleScholarConnector.parse_paper_id "not-an-id" = "googlescholar:not-an-id" := by
  refine ⟨?_, rfl, rfl, rfl⟩
  intro x h1 h2 h3
  simp [PubMedConnector.parse_paper_id, h1, h2, h3]

/-- Witness for C4 (amended): `"foo-bar"` matches no PubMed pattern and is
returned unchanged. -/
theorem c4_noop_convention_witness :
    PubMedConnector.parse_paper_id "foo-bar" = "foo-bar" :=
  c4_noop_convention.1 "foo-bar" (by decide) (by decide) (by decide)

/-- Counterexample for C4 as stated: `"not-an-arxiv-id"` matches no arXiv
pattern, yet the arXiv connector rewrites it instead of returning it
unchanged. -/
theorem c4_counterexample :
    ArxivConnector.parse_paper_id "not-an-arxiv-id" = "arxiv:not-an-arxiv-id" ∧
    "arxiv:not-an-arxiv-id" ≠ "not-an-arxiv-id" :=
  ⟨rfl, by decide⟩

/-! ## Claim C7: the Crossref-to-Paper conversion -/

/-- C7 (amended): for a work whose only field is a nonempty `DOI`, every
optional field is absent and the conversion still produces a `Paper` with
the documented defaults; a work with no `DOI` at all converts to `None`.
(The conversion can ALSO fail with a `DOI` present, when a present
optional field is malformed — see the counterexample.) -/
theorem c7_missing_fields_graceful :
    (∀ d : String, d ≠ "" →
      crossref_to_paper (.obj [("DOI", .s d)]) = some
        { paper_id := "doi:" ++ d, title := "", authors := [],
          abstract := some "", url := some "", pdf_url := none,
          publication_date := none, journal := some "",
          doi := some d, source := "crossref", citations_count := none,
          raw_metadata := some (.obj [("DOI", .s d)]) }) ∧
    crossref_to_paper (.obj []) = none := by
  refine ⟨?_, rfl⟩
  intro d h
  have hb : (d != "") = true := by simpa using h
  simp [crossref_to_paper, crossrefToPaperE, jGet, jTruthy, hb,
    JVal.asStr, titleLike, List.lookup, Bind.bind, Except.bind, Pure.pure,
    Except.pure]

/-- Witness for C7 (amended), instantiated at the DOI `"10.1/x"`. -/
theorem c7_missing_fields_graceful_witness :
    crossref_to_paper (.obj [("DOI", .s "10.1/x")]) = some
      { paper_id := "doi:" ++ "10.1/x", title := "", authors := [],
        abstract := some "", url := some "", pdf_url := none,
        publication_date := none, journal := some "",
        doi := some "10.1/x", source := "crossref", citations_count := none,
        raw_metadata := some (.obj [("DOI", .s "10.1/x")]) } :=
  c7_missing_fields_graceful.1 "10.1/x" (by decide)

/-- Counterexample for C7 as stated: a work that DOES contain a DOI but
whose `title` field is present as an empty list makes the conversion fail
(`[""][0]` → the `title` expression indexes the empty list, raising
`IndexError`, caught as `None`) — so the conversion does not fail *only*
on a missing DOI. -/
theorem c7_counterexample :
    crossref_to_paper (.obj [("DOI", .s "10.1/x"), ("title", .arr [])]) = none :=
  rfl

/-! ## Claim C2: DOI-fallback routing -/

/-- If every registered connector's probe returns the id unchanged, the
probe selects nothing. -/
theorem probeConnectors_all_identity (pid : String) :
    ∀ (conns : List (String × ResolverConnector)),
      (∀ nc ∈ conns, nc.2.parse_paper_id pid = .ok pid) →
      probeConnectors pid conns = .ok none := by
  intro conns
  induction conns with
  | nil => intro _; rfl
  | cons nc rest ih =>
    intro hall
    obtain ⟨nm, conn⟩ := nc
    have hhd := hall (nm, conn) (List.mem_cons_self _ rest)
    have hrest := ih fun x hx => hall x (List.mem_cons_of_mem _ hx)
    unfold probeConnectors
    rw [hhd]
    change (if pid ≠ pid then Except.ok (some (conn, pid)) else probeConnectors pid rest) =
      Except.ok none
    rw [if_neg (by simp), hrest]

/-- C2 (amended): when no connector claims an id (neither by registered
prefix nor by rewriting it in the probe), the metadata fetch goes to the
Crossref DOI fallback ONLY for ids with the literal `doi:` namespace tag;
an id that is merely DOI-shaped (starting with `10.`) is NOT routed to the
fallback and resolves to nothing.  For the `doi:`-tagged seed of the
spec's scenario, the graph has exactly one node, with title `"T"` and
source tag `"crossref"`. -/
theorem c2_doi_fallback_routing :
    (∀ (conns : List (String × ResolverConnector))
       (works : String → Except Unit (Option JVal)) (pid : String),
       directConnector conns pid = none →
       (∀ nc ∈ conns, nc.2.parse_paper_id pid = .ok pid) →
       pyStartsWith pid "doi:" = false →
       get_paper_metadata conns works pid = .ok none) ∧
    ((build_citation_graph doiFallbackEnv ["doi:10.1/xyz"] 0 20 "both").nodes.map
      fun p => (p.title, p.source)) = [("T", "crossref")] := by
  constructor
  · intro conns works pid hdirect hall hdoi
    unfold get_paper_metadata
    rw [hdirect, probeConnectors_all_identity pid conns hall, hdoi]
    simp
  · rfl

/-- Witness for C2 (amended): the bare DOI-shaped id `"10.1/xyz"` with the
PubMed-only registry — unclaimed, not `doi:`-tagged — resolves to nothing. -/
theorem c2_doi_fallback_routing_witness :
    get_paper_metadata [("pubmed", pubmedResolver)] worksWithT "10.1/xyz" = .ok none :=
  c2_doi_fallback_routing.1 [("pubmed", pubmedResolver)] worksWithT "10.1/xyz"
    rfl (by decide) rfl

/-- Counterexample for C2 as stated: for the bare DOI-shaped seed
`"10.1/xyz"` (claimed by no connector), the claim promises a graph with
one node of title `"T"` — but the built graph has NO nodes, even though
the mock DOI lookup stands ready to deliver the work titled `"T"` for
exactly that DOI.  Only the `doi:`-tagged spelling reaches the fallback. -/
theorem c2_counterexample :
    (build_citation_graph doiFallbackEnv ["10.1/xyz"] 0 20 "both").nodes = [] ∧
    worksWithT "10.1/xyz" =
      .ok (some (.obj [("DOI", .s "10.1/xyz"), ("title", .arr [.s "T"])])) :=
  ⟨rfl, rfl⟩
